import Mathlib

/-!
Verification development for the ChromaFlow color-grid explorer.

The repository's core (`src/components/GridCanvas.tsx`, final variant, together
with the utility module `src/unnamed/part_000`) is shallowly embedded here.
JavaScript numbers are modelled as rationals (`ℚ`); the JavaScript operators
that the embedded code uses are modelled explicitly:

* `x % y` (sign-of-dividend remainder) is `jsMod`, built on truncation toward
  zero (`jsTrunc`);
* `Math.round` is `jsRound` (round half toward +∞);
* `Number.prototype.toFixed(2)` is `toFixed2Str` (round half away from zero,
  two fixed decimals);
* `x.toString(16)` is `jsHexList` (lowercase hexadecimal, `-` sign prefix).

Stateful React code is embedded as explicit state passing: each event handler
becomes a pure function from the component state to the next state.
-/

namespace ChromaFlow

/-- JavaScript truncation toward zero, used by the `%` operator. -/
def jsTrunc (q : ℚ) : ℤ := if 0 ≤ q then ⌊q⌋ else -⌊-q⌋

/-- The JavaScript remainder operator `a % b`: `a - b * trunc (a / b)`.
(The claims only use it with a nonzero divisor.) -/
def jsMod (a b : ℚ) : ℚ := a - b * jsTrunc (a / b)

/-- `Math.round`: round half toward +∞. -/
def jsRound (q : ℚ) : ℤ := ⌊q + 1/2⌋

/-- `getBouncedValue` from `src/unnamed/part_000` (lines 84-89): the
reflecting triangle-wave ("bounce") tiling primitive.
```
const cycle = 2 * max;
let rem = value % cycle;
if (rem < 0) rem += cycle;
return rem > max ? cycle - rem : rem;
``` -/
def getBouncedValue (value max : ℚ) : ℚ :=
  let cycle := 2 * max
  let rem := jsMod value cycle
  let rem2 := if rem < 0 then rem + cycle else rem
  if rem2 > max then cycle - rem2 else rem2

/-- `getPingPongValue` from `src/utils.ts` (lines 41-49): identical to
`getBouncedValue` except that a non-positive `max` short-circuits to `0`. -/
def getPingPongValue (index max : ℚ) : ℚ :=
  if max ≤ 0 then 0 else getBouncedValue index max

/-- For a positive divisor, the JS remainder followed by the
`if (rem < 0) rem += cycle` fix-up is the Euclidean remainder
`c * Int.fract (v / c)`. -/
theorem normRem_eq (v c : ℚ) (hc : 0 < c) :
    (if jsMod v c < 0 then jsMod v c + c else jsMod v c) = c * Int.fract (v / c) := by
  have hcne : c ≠ 0 := ne_of_gt hc
  have hv : v / c * c = v := div_mul_cancel₀ v hcne
  have hkey : v - c * (⌊v / c⌋ : ℚ) = c * Int.fract (v / c) := by
    have h1 : Int.fract (v / c) = v / c - ⌊v / c⌋ := Int.self_sub_floor (v / c) |>.symm
    rw [h1]
    calc v - c * (⌊v / c⌋ : ℚ) = v / c * c - c * ⌊v / c⌋ := by rw [hv]
      _ = c * (v / c - ⌊v / c⌋) := by ring
  have hfr0 : 0 ≤ Int.fract (v / c) := Int.fract_nonneg _
  have hfr1 : Int.fract (v / c) < 1 := Int.fract_lt_one _
  unfold jsMod jsTrunc
  by_cases hx : 0 ≤ v / c
  · rw [if_pos hx]
    have hge : 0 ≤ v - c * (⌊v / c⌋ : ℚ) := by
      rw [hkey]; positivity
    rw [if_neg (by linarith)]
    exact hkey
  · rw [if_neg hx]
    by_cases hz : Int.fract (v / c) = 0
    · have hfl : ((⌊v / c⌋ : ℤ) : ℚ) = v / c := by
        have := Int.floor_add_fract (v / c)
        rw [hz, add_zero] at this; exact this
      have hnegfloor : ⌊-(v / c)⌋ = -⌊v / c⌋ := by
        conv_lhs => rw [← hfl]
        rw [← Int.cast_neg, Int.floor_intCast]
      rw [hnegfloor]
      have h0 : v - c * ((-(-⌊v / c⌋) : ℤ) : ℚ) = 0 := by
        push_cast
        rw [neg_neg, hkey, hz, mul_zero]
      rw [if_neg (by rw [h0]; linarith), h0, hz, mul_zero]
    · have h0 : 0 < Int.fract (v / c) := lt_of_le_of_ne hfr0 (Ne.symm hz)
      have hflq : ((⌊v / c⌋ : ℤ) : ℚ) = v / c - Int.fract (v / c) := by
        have := Int.floor_add_fract (v / c)
        linarith
      have hneg : ⌊-(v / c)⌋ = -⌊v / c⌋ - 1 := by
        rw [Int.floor_eq_iff]
        constructor
        · push_cast; linarith
        · push_cast; linarith
      rw [hneg]
      have heq : v - c * ((-(-⌊v / c⌋ - 1) : ℤ) : ℚ) = c * Int.fract (v / c) - c := by
        push_cast
        have : v - c * ((⌊v / c⌋ : ℚ) + 1) = (v - c * (⌊v / c⌋ : ℚ)) - c := by ring
        rw [show (-(-(⌊v / c⌋ : ℚ) - 1)) = (⌊v / c⌋ : ℚ) + 1 by ring, this, hkey]
      rw [if_pos (by rw [heq]; nlinarith)]
      rw [heq]; ring

/-- Closed form of the bounce function over its folded remainder, for a
positive `max`. -/
theorem getBouncedValue_fract (v m : ℚ) (hm : 0 < m) :
    getBouncedValue v m =
      (if 2 * m * Int.fract (v / (2 * m)) > m
        then 2 * m - 2 * m * Int.fract (v / (2 * m))
        else 2 * m * Int.fract (v / (2 * m))) := by
  have hc : (0 : ℚ) < 2 * m := by linarith
  have key := normRem_eq v (2 * m) hc
  simp only [getBouncedValue]
  rw [key]

theorem getBouncedValue_nonneg (v m : ℚ) (hm : 0 < m) : 0 ≤ getBouncedValue v m := by
  have hc : (0 : ℚ) < 2 * m := by linarith
  have hfr0 : 0 ≤ Int.fract (v / (2 * m)) := Int.fract_nonneg _
  have hfr1 : Int.fract (v / (2 * m)) < 1 := Int.fract_lt_one _
  rw [getBouncedValue_fract v m hm]
  split
  · nlinarith
  · nlinarith

theorem getBouncedValue_le (v m : ℚ) (hm : 0 < m) : getBouncedValue v m ≤ m := by
  have hc : (0 : ℚ) < 2 * m := by linarith
  have hfr0 : 0 ≤ Int.fract (v / (2 * m)) := Int.fract_nonneg _
  have hfr1 : Int.fract (v / (2 * m)) < 1 := Int.fract_lt_one _
  rw [getBouncedValue_fract v m hm]
  split
  · linarith
  · linarith

theorem getBouncedValue_period (v m : ℚ) (hm : 0 < m) :
    getBouncedValue (v + 2 * m) m = getBouncedValue v m := by
  have hc : (0 : ℚ) < 2 * m := by linarith
  have hcne : (2 * m : ℚ) ≠ 0 := ne_of_gt hc
  have h1 : (v + 2 * m) / (2 * m) = v / (2 * m) + 1 := by
    rw [add_div, div_self hcne]
  rw [getBouncedValue_fract _ m hm, getBouncedValue_fract v m hm, h1, Int.fract_add_one]

theorem getBouncedValue_zero (m : ℚ) (hm : 0 < m) : getBouncedValue 0 m = 0 := by
  have hc : (0 : ℚ) < 2 * m := by linarith
  rw [getBouncedValue_fract 0 m hm, zero_div, Int.fract_zero, mul_zero,
    if_neg (by linarith)]

theorem getBouncedValue_at_max (m : ℚ) (hm : 0 < m) : getBouncedValue m m = m := by
  have hc : (0 : ℚ) < 2 * m := by linarith
  have h1 : m / (2 * m) = 1 / 2 := by
    rw [div_eq_iff (ne_of_gt hc)]; ring
  have h2 : Int.fract ((1 : ℚ) / 2) = 1 / 2 :=
    Int.fract_eq_self.mpr ⟨by norm_num, by norm_num⟩
  rw [getBouncedValue_fract m m hm, h1, h2]
  rw [show (2 * m * (1 / 2) : ℚ) = m by ring, if_neg (by linarith)]

theorem getBouncedValue_at_two_max (m : ℚ) (hm : 0 < m) :
    getBouncedValue (2 * m) m = 0 := by
  have hc : (0 : ℚ) < 2 * m := by linarith
  have h1 : (2 * m) / (2 * m) = 1 := div_self (ne_of_gt hc)
  rw [getBouncedValue_fract _ m hm, h1, Int.fract_one, mul_zero, if_neg (by linarith)]

/-- C3: the bounce/tiling function satisfies, for every positive `max` and
every integer `v`: `bounce(v, max)` lies in `[0, max]`; bounce is periodic
with period `2*max`; `bounce(0,max) = 0`, `bounce(max,max) = max`,
`bounce(2*max,max) = 0`; and in particular `bounce(7, 5) = 3`. -/
theorem C3_bounce_properties :
    (∀ max : ℚ, 0 < max →
      (∀ v : ℤ, 0 ≤ getBouncedValue (v : ℚ) max ∧ getBouncedValue (v : ℚ) max ≤ max ∧
        getBouncedValue ((v : ℚ) + 2 * max) max = getBouncedValue (v : ℚ) max) ∧
      getBouncedValue 0 max = 0 ∧ getBouncedValue max max = max ∧
      getBouncedValue (2 * max) max = 0) ∧
    getBouncedValue 7 5 = 3 := by
  constructor
  · intro m hm
    exact ⟨fun v => ⟨getBouncedValue_nonneg _ m hm, getBouncedValue_le _ m hm,
      getBouncedValue_period _ m hm⟩,
      getBouncedValue_zero m hm, getBouncedValue_at_max m hm,
      getBouncedValue_at_two_max m hm⟩
  · norm_num [getBouncedValue, jsMod, jsTrunc]

/-- Witness for C3 at `max = 5`, `v = -7`. -/
theorem C3_bounce_properties_witness :
    (0 ≤ getBouncedValue ((-7 : ℤ) : ℚ) 5 ∧ getBouncedValue ((-7 : ℤ) : ℚ) 5 ≤ 5 ∧
      getBouncedValue (((-7 : ℤ) : ℚ) + 2 * 5) 5 = getBouncedValue ((-7 : ℤ) : ℚ) 5) ∧
    getBouncedValue 0 5 = 0 ∧ getBouncedValue 5 5 = 5 ∧ getBouncedValue (2 * 5) 5 = 0 :=
  ⟨(C3_bounce_properties.1 5 (by norm_num)).1 (-7),
    (C3_bounce_properties.1 5 (by norm_num)).2⟩

/-! ## Viewport model (`src/components/GridCanvas.tsx`, final variant) -/

/-- Layout constant `RECT_WIDTH = 100`. -/
def RECT_WIDTH : ℚ := 100

/-- Layout constant `RECT_HEIGHT = 60`. -/
def RECT_HEIGHT : ℚ := 60

/-- Layout constant `GAP = 10`. -/
def GAP : ℚ := 10

/-- Layout constant `CELL_W = RECT_WIDTH + GAP`. -/
def CELL_W : ℚ := RECT_WIDTH + GAP

/-- Layout constant `CELL_H = RECT_HEIGHT + GAP`. -/
def CELL_H : ℚ := RECT_HEIGHT + GAP

/-- The `ViewState` interface from `src/unnamed/part_001`: `x`/`y` is the
screen-space position of world coordinate `(0,0)`, `scale` the smooth zoom
factor, `step` the density/tolerance. -/
structure ViewState where
  x : ℚ
  y : ℚ
  scale : ℚ
  step : ℚ
deriving DecidableEq

/-- An integer cell address `(c, r)` of the infinite grid. -/
structure Cell where
  c : ℤ
  r : ℤ
deriving DecidableEq

/-- `performZoom` from `GridCanvas.tsx` (lines 911-980): clamp the raw scale
into `[0.8, 1.2]`; on hitting a clamp boundary adjust the step, either
proportionally from `pinchDelta` (continuous pinch input) or by one unit
(discrete wheel/key input, only when actually zooming past the boundary);
then recompute the offset so that the selected cell's screen position
(`offset + world·scale`) is unchanged. -/
def performZoom (viewState : ViewState) (selectedCell : Cell)
    (newRawScale : ℚ) (pinchDelta : ℚ) : ViewState :=
  let newScale :=
    if newRawScale > 12/10 then 12/10
    else if newRawScale < 8/10 then 8/10
    else newRawScale
  let newStep :=
    if newRawScale > 12/10 then
      (if pinchDelta ≠ 0 then
        max 1 (min 25 (viewState.step - (jsRound (pinchDelta * (1/10)) : ℚ)))
      else if newRawScale > viewState.scale then
        min 25 (max 1 (viewState.step - 1))
      else viewState.step)
    else if newRawScale < 8/10 then
      (if pinchDelta ≠ 0 then
        max 1 (min 25 (viewState.step - (jsRound (pinchDelta * (1/10)) : ℚ)))
      else if newRawScale < viewState.scale then
        min 25 (max 1 (viewState.step + 1))
      else viewState.step)
    else viewState.step
  let selWorldX := (selectedCell.c : ℚ) * CELL_W
  let selWorldY := (selectedCell.r : ℚ) * CELL_H
  let selScreenX := viewState.x + selWorldX * viewState.scale
  let selScreenY := viewState.y + selWorldY * viewState.scale
  { x := selScreenX - selWorldX * newScale,
    y := selScreenY - selWorldY * newScale,
    scale := newScale,
    step := newStep }

/-- Horizontal screen position of the selected cell's world point
(`Screen = Offset + World * Scale`, `GridCanvas.tsx` line 965). -/
def selScreenX (st : ViewState) (sel : Cell) : ℚ :=
  st.x + ((sel.c : ℚ) * CELL_W) * st.scale

/-- Vertical screen position of the selected cell's world point. -/
def selScreenY (st : ViewState) (sel : Cell) : ℚ :=
  st.y + ((sel.r : ℚ) * CELL_H) * st.scale

/-- A sequence of `performZoom` calls, each given by its
`(newRawScale, pinchDelta)` arguments, applied in order. -/
def applyZoomSeq (sel : Cell) (ops : List (ℚ × ℚ)) (st : ViewState) : ViewState :=
  ops.foldl (fun s op => performZoom s sel op.1 op.2) st

theorem performZoom_anchor_exact (st : ViewState) (sel : Cell)
    (newRawScale pinchDelta : ℚ) :
    selScreenX (performZoom st sel newRawScale pinchDelta) sel = selScreenX st sel ∧
    selScreenY (performZoom st sel newRawScale pinchDelta) sel = selScreenY st sel := by
  simp only [performZoom, selScreenX, selScreenY]
  constructor <;> ring

theorem applyZoomSeq_anchor_exact (sel : Cell) (ops : List (ℚ × ℚ)) (st : ViewState) :
    selScreenX (applyZoomSeq sel ops st) sel = selScreenX st sel ∧
    selScreenY (applyZoomSeq sel ops st) sel = selScreenY st sel := by
  induction ops generalizing st with
  | nil => exact ⟨rfl, rfl⟩
  | cons op ops ih =>
    have h1 := performZoom_anchor_exact st sel op.1 op.2
    have h2 := ih (performZoom st sel op.1 op.2)
    exact ⟨h2.1.trans h1.1, h2.2.trans h1.2⟩

/-- C1: anchor-preserving zoom. For every viewport state with scale in
`[0.8, 1.2]` and every selected cell, `performZoom` leaves the screen
position of the selected cell's world point exactly unchanged
(`newOffset + selWorld·newScale = oldOffset + selWorld·oldScale`), and
across any sequence of `performZoom` calls the screen position differs
by less than `0.01` px (in fact by exactly `0`). -/
theorem C1_anchor_preserving_zoom (st : ViewState) (sel : Cell)
    (hs1 : 8/10 ≤ st.scale) (hs2 : st.scale ≤ 12/10) :
    (∀ newRawScale pinchDelta : ℚ,
      selScreenX (performZoom st sel newRawScale pinchDelta) sel = selScreenX st sel ∧
      selScreenY (performZoom st sel newRawScale pinchDelta) sel = selScreenY st sel) ∧
    (∀ ops : List (ℚ × ℚ),
      |selScreenX (applyZoomSeq sel ops st) sel - selScreenX st sel| < 1/100 ∧
      |selScreenY (applyZoomSeq sel ops st) sel - selScreenY st sel| < 1/100) := by
  refine ⟨fun raw pd => performZoom_anchor_exact st sel raw pd, fun ops => ?_⟩
  obtain ⟨hx, hy⟩ := applyZoomSeq_anchor_exact sel ops st
  rw [hx, hy, sub_self, abs_zero]
  norm_num

/-- Witness for C1 at a concrete state, cell and zoom sequence. -/
theorem C1_anchor_preserving_zoom_witness :
    (selScreenX (performZoom ⟨0, 0, 1, 5⟩ ⟨1, 2⟩ (13/10) 0) ⟨1, 2⟩ =
        selScreenX ⟨0, 0, 1, 5⟩ ⟨1, 2⟩ ∧
      selScreenY (performZoom ⟨0, 0, 1, 5⟩ ⟨1, 2⟩ (13/10) 0) ⟨1, 2⟩ =
        selScreenY ⟨0, 0, 1, 5⟩ ⟨1, 2⟩) ∧
    (|selScreenX (applyZoomSeq ⟨1, 2⟩ [(13/10, 0), (1/2, 3)] ⟨0, 0, 1, 5⟩) ⟨1, 2⟩ -
        selScreenX ⟨0, 0, 1, 5⟩ ⟨1, 2⟩| < 1/100 ∧
      |selScreenY (applyZoomSeq ⟨1, 2⟩ [(13/10, 0), (1/2, 3)] ⟨0, 0, 1, 5⟩) ⟨1, 2⟩ -
        selScreenY ⟨0, 0, 1, 5⟩ ⟨1, 2⟩| < 1/100) := by
  have h := C1_anchor_preserving_zoom ⟨0, 0, 1, 5⟩ ⟨1, 2⟩ (by norm_num) (by norm_num)
  exact ⟨h.1 (13/10) 0, h.2 [(13/10, 0), (1/2, 3)]⟩

/-- The density-change rebasing effect (`GridCanvas.tsx` lines 840-850):
when the step changed by more than `0.0001`, shift the grid origin by
`selectedCell · (prevStep − currentStep)`. -/
def stepRebase (prevStep currentStep : ℚ) (selectedCell : Cell)
    (origin : ℚ × ℚ) : ℚ × ℚ :=
  if |currentStep - prevStep| > 1/10000 then
    (origin.1 + (selectedCell.c : ℚ) * (prevStep - currentStep),
     origin.2 + (selectedCell.r : ℚ) * (prevStep - currentStep))
  else origin

/-- C2: density-change rebasing invariant. After the rebase that sets
`origin' = (l + c·(old − new), s + r·(old − new))`, the selected cell's
color under the new state equals its color under the old state. -/
theorem C2_density_rebase_invariant (l s : ℚ) (c r : ℤ) (oldStep newStep : ℚ)
    (h : |newStep - oldStep| > 1/10000) :
    getBouncedValue ((stepRebase oldStep newStep ⟨c, r⟩ (l, s)).1 + (c : ℚ) * newStep) 100 =
      getBouncedValue (l + (c : ℚ) * oldStep) 100 ∧
    getBouncedValue ((stepRebase oldStep newStep ⟨c, r⟩ (l, s)).2 + (r : ℚ) * newStep) 100 =
      getBouncedValue (s + (r : ℚ) * oldStep) 100 := by
  rw [stepRebase, if_pos h]
  constructor
  · have e : l + (c : ℚ) * (oldStep - newStep) + (c : ℚ) * newStep =
        l + (c : ℚ) * oldStep := by ring
    simp only []
    rw [e]
  · have e : s + (r : ℚ) * (oldStep - newStep) + (r : ℚ) * newStep =
        s + (r : ℚ) * oldStep := by ring
    simp only []
    rw [e]

/-- Witness for C2: origin `(50, 50)`, selected cell `(2, 1)`, density
change `5 → 4`. -/
theorem C2_density_rebase_invariant_witness :
    getBouncedValue ((stepRebase 5 4 ⟨2, 1⟩ (50, 50)).1 + ((2 : ℤ) : ℚ) * 4) 100 =
      getBouncedValue (50 + ((2 : ℤ) : ℚ) * 5) 100 ∧
    getBouncedValue ((stepRebase 5 4 ⟨2, 1⟩ (50, 50)).2 + ((1 : ℤ) : ℚ) * 4) 100 =
      getBouncedValue (50 + ((1 : ℤ) : ℚ) * 5) 100 :=
  C2_density_rebase_invariant 50 50 2 1 5 4 (by norm_num)

/-- A zoom operation: a `performZoom` call (wheel computes
`rawScale = scale ± 0.05`, pinch computes `rawScale = scale · ratio`; both
funnel into `performZoom`, so an arbitrary raw scale covers both), or a
modifier-zoom from `handleKeyDown` (`GridCanvas.tsx` lines 1177-1203:
`scale = Math.min(1.2, scale + 0.05)` for Ctrl+Up/Right,
`scale = Math.max(0.8, scale - 0.05)` for Ctrl+Down/Left). -/
inductive ZoomOp where
  | zoom (newRawScale pinchDelta : ℚ) (sel : Cell)
  | keyZoomIn
  | keyZoomOut

/-- Apply one zoom operation to the viewport state. -/
def applyZoomOp (st : ViewState) : ZoomOp → ViewState
  | ZoomOp.zoom raw pd sel => performZoom st sel raw pd
  | ZoomOp.keyZoomIn => { st with scale := min (12/10) (st.scale + 5/100) }
  | ZoomOp.keyZoomOut => { st with scale := max (8/10) (st.scale - 5/100) }

/-- The initial view state from `src/App.tsx` (lines 11-16):
`scale = 1`, `step = 5`, offset at the screen center. -/
def initViewState (x0 y0 : ℚ) : ViewState :=
  { x := x0, y := y0, scale := 1, step := 5 }

/-- The clamp invariant: scale in `[0.8, 1.2]` and step an integer
in `[1, 25]`. -/
def ClampInv (st : ViewState) : Prop :=
  8/10 ≤ st.scale ∧ st.scale ≤ 12/10 ∧
    ∃ n : ℤ, st.step = (n : ℚ) ∧ 1 ≤ n ∧ n ≤ 25

theorem applyZoomOp_clamp (st : ViewState) (op : ZoomOp) (h : ClampInv st) :
    ClampInv (applyZoomOp st op) := by
  obtain ⟨h1, h2, n, hn, hn1, hn2⟩ := h
  cases op with
  | zoom raw pd sel =>
    simp only [applyZoomOp, performZoom, ClampInv]
    refine ⟨?_, ?_, ?_⟩
    · split_ifs with ha hb
      · norm_num
      · norm_num
      · push_neg at ha hb; linarith
    · split_ifs with ha hb
      · norm_num
      · norm_num
      · push_neg at ha hb; linarith
    · rw [hn]
      split_ifs with ha hp hd hb hp2 hd2
      · refine ⟨max 1 (min 25 (n - jsRound (pd * (1/10)))), ?_, by omega, by omega⟩
        push_cast
        rfl
      · exact ⟨min 25 (max 1 (n - 1)), by push_cast; rfl, by omega, by omega⟩
      · exact ⟨n, rfl, hn1, hn2⟩
      · refine ⟨max 1 (min 25 (n - jsRound (pd * (1/10)))), ?_, by omega, by omega⟩
        push_cast
        rfl
      · exact ⟨min 25 (max 1 (n + 1)), by push_cast; rfl, by omega, by omega⟩
      · exact ⟨n, rfl, hn1, hn2⟩
      · exact ⟨n, rfl, hn1, hn2⟩
  | keyZoomIn =>
    exact ⟨le_min (by norm_num) (by linarith), min_le_left _ _, n, hn, hn1, hn2⟩
  | keyZoomOut =>
    exact ⟨le_max_left _ _, max_le (by norm_num) (by linarith), n, hn, hn1, hn2⟩

/-- C4: clamp invariant. Starting from the initial state
(`scale = 1`, `step = 5`), after any sequence of zoom operations
(`performZoom` from wheel or pinch, and keyboard modifier-zoom), the
viewport scale is in `[0.8, 1.2]` and the step is an integer in `[1, 25]`. -/
theorem C4_clamp_invariant (x0 y0 : ℚ) (ops : List ZoomOp) :
    ClampInv (ops.foldl applyZoomOp (initViewState x0 y0)) := by
  have h0 : ClampInv (initViewState x0 y0) :=
    ⟨by norm_num [initViewState], by norm_num [initViewState],
      5, by norm_num [initViewState], by norm_num, by norm_num⟩
  suffices h : ∀ st : ViewState, ClampInv st → ClampInv (ops.foldl applyZoomOp st) from
    h _ h0
  induction ops with
  | nil => exact fun st h => h
  | cons op ops ih => exact fun st h => ih _ (applyZoomOp_clamp st op h)

/-- An HSL color triple (hue, saturation, lightness), as in
`src/unnamed/part_001`. -/
structure HSL where
  h : ℚ
  s : ℚ
  l : ℚ
deriving DecidableEq

/-- The combined state read and written by the external-jump effect. -/
structure JumpResult where
  gridOrigin : ℚ × ℚ
  selectedCell : Cell
  view : ViewState
deriving DecidableEq

/-- The external-jump effect (`GridCanvas.tsx` lines 808-837): compute the
color the currently selected cell would show; if it differs from the
requested `selectedColor` by more than `epsilon = 0.01` in lightness or
saturation, set the grid origin to exactly the requested
`(lightness, saturation)`, reset the selected cell to `(0,0)` and move the
offset to the screen center `(vw/2, vh/2)`; otherwise change nothing. -/
def jumpOnExternalColor (gridOrigin : ℚ × ℚ) (selectedCell : Cell)
    (prevStep : ℚ) (selectedColor : HSL) (vw vh : ℚ) (st : ViewState) : JumpResult :=
  let currentL := getBouncedValue (gridOrigin.1 + (selectedCell.c : ℚ) * prevStep) 100
  let currentS := getBouncedValue (gridOrigin.2 + (selectedCell.r : ℚ) * prevStep) 100
  let epsilon : ℚ := 1/100
  let diffL := |currentL - selectedColor.l|
  let diffS := |currentS - selectedColor.s|
  if diffL > epsilon ∨ diffS > epsilon then
    { gridOrigin := (selectedColor.l, selectedColor.s),
      selectedCell := ⟨0, 0⟩,
      view := { st with x := vw / 2, y := vh / 2 } }
  else
    { gridOrigin := gridOrigin, selectedCell := selectedCell, view := st }

/-- C5: external jump. The hard rebase (origin set to exactly the requested
lightness/saturation, selected cell reset to `(0,0)`, offset recentered so
world `(0,0)` — whose screen position is the offset itself — lands at the
screen center) happens precisely when the selected cell's computed color
differs from the request by more than `0.01` in lightness or saturation;
otherwise grid origin, selected cell and offset are unchanged. -/
theorem C5_external_jump (gridOrigin : ℚ × ℚ) (sel : Cell) (prevStep : ℚ)
    (selColor : HSL) (vw vh : ℚ) (st : ViewState) :
    ((|getBouncedValue (gridOrigin.1 + (sel.c : ℚ) * prevStep) 100 - selColor.l| > 1/100 ∨
      |getBouncedValue (gridOrigin.2 + (sel.r : ℚ) * prevStep) 100 - selColor.s| > 1/100) →
      jumpOnExternalColor gridOrigin sel prevStep selColor vw vh st =
        ⟨(selColor.l, selColor.s), ⟨0, 0⟩, ⟨vw / 2, vh / 2, st.scale, st.step⟩⟩) ∧
    (¬(|getBouncedValue (gridOrigin.1 + (sel.c : ℚ) * prevStep) 100 - selColor.l| > 1/100 ∨
       |getBouncedValue (gridOrigin.2 + (sel.r : ℚ) * prevStep) 100 - selColor.s| > 1/100) →
      jumpOnExternalColor gridOrigin sel prevStep selColor vw vh st =
        ⟨gridOrigin, sel, st⟩) := by
  constructor
  · intro hcond
    rw [jumpOnExternalColor, if_pos hcond]
  · intro hcond
    rw [jumpOnExternalColor, if_neg hcond]

/-- Witness for C5: the spec scenario (origin `(50,50)`, selected cell
`(2,1)`, density `5`, request `(H 210, S 80, L 30)`; the selected cell's
color is `(60, 55)`, so the jump fires), plus a no-jump case where the
request matches the selected cell's color exactly. -/
theorem C5_external_jump_witness :
    jumpOnExternalColor (50, 50) ⟨2, 1⟩ 5 ⟨210, 80, 30⟩ 1000 800 ⟨123, 456, 1, 5⟩ =
      ⟨(30, 80), ⟨0, 0⟩, ⟨500, 400, 1, 5⟩⟩ ∧
    jumpOnExternalColor (50, 50) ⟨2, 1⟩ 5 ⟨210, 55, 60⟩ 1000 800 ⟨123, 456, 1, 5⟩ =
      ⟨(50, 50), ⟨2, 1⟩, ⟨123, 456, 1, 5⟩⟩ := by
  constructor
  · have h := (C5_external_jump (50, 50) ⟨2, 1⟩ 5 ⟨210, 80, 30⟩ 1000 800
      ⟨123, 456, 1, 5⟩).1 (by norm_num [getBouncedValue, jsMod, jsTrunc])
    rw [h]
    norm_num
  · have h := (C5_external_jump (50, 50) ⟨2, 1⟩ 5 ⟨210, 55, 60⟩ 1000 800
      ⟨123, 456, 1, 5⟩).2 (by norm_num [getBouncedValue, jsMod, jsTrunc])
    rw [h]

/-! ## Color math (`src/unnamed/part_000`) -/

/-- The lowercase hexadecimal digit for a value below 16 (codepoint
arithmetic: `0`-`9` start at 48, `a`-`f` at 97). -/
def hexChar (n : ℕ) : Char :=
  if n < 10 then Char.ofNat (48 + n) else Char.ofNat (87 + n)

/-- `x.toString(16)` for a natural number: lowercase hexadecimal digits,
most significant first, no leading zeros. -/
def hexRep (n : ℕ) : List Char :=
  if h : n < 16 then [hexChar n]
  else hexRep (n / 16) ++ [hexChar (n % 16)]
decreasing_by exact Nat.div_lt_self (by omega) (by omega)

/-- `x.toString(16)` for a JS integer: a `-` sign prefix for negatives. -/
def jsHexList (x : ℤ) : List Char :=
  if x < 0 then '-' :: hexRep (-x).toNat else hexRep x.toNat

/-- The `hex.length === 1 ? "0" + hex : hex` padding step of `RGBToHex`. -/
def padHex2 (cs : List Char) : List Char :=
  if cs.length = 1 then '0' :: cs else cs

/-- `RGBToHex` from `src/unnamed/part_000` (lines 13-18):
`"#" + [r, g, b].map(pad).join("").toUpperCase()`. -/
def RGBToHex (r g b : ℤ) : String :=
  String.mk ('#' ::
    ((padHex2 (jsHexList r) ++ padHex2 (jsHexList g) ++ padHex2 (jsHexList b)).map
      Char.toUpper))

/-- The value of one hexadecimal digit (case-insensitive, as matched by the
`[a-f\d]` character class with the `i` flag and read by `parseInt(_, 16)`). -/
def hexDigitVal? (c : Char) : Option ℤ :=
  if ('0' ≤ c ∧ c ≤ '9') then some ((c.toNat : ℤ) - 48)
  else if ('a' ≤ c ∧ c ≤ 'f') then some ((c.toNat : ℤ) - 87)
  else if ('A' ≤ c ∧ c ≤ 'F') then some ((c.toNat : ℤ) - 55)
  else none

/-- The optional leading `#` of the pattern `^#?(...)$`. -/
def stripHash (cs : List Char) : List Char :=
  match cs with
  | c :: rest => if c = '#' then rest else c :: rest
  | [] => []

/-- Matching `([a-f\d]{2})([a-f\d]{2})([a-f\d]{2})$` and the three
`parseInt(result[i], 16)` reads. -/
def parseHex6 (cs : List Char) : Option (ℤ × ℤ × ℤ) :=
  match cs with
  | [c1, c2, c3, c4, c5, c6] =>
    match hexDigitVal? c1, hexDigitVal? c2, hexDigitVal? c3,
        hexDigitVal? c4, hexDigitVal? c5, hexDigitVal? c6 with
    | some v1, some v2, some v3, some v4, some v5, some v6 =>
      some (16 * v1 + v2, 16 * v3 + v4, 16 * v5 + v6)
    | _, _, _, _, _, _ => none
  | _ => none

/-- `HexToRGB` from `src/unnamed/part_000` (lines 20-27): run the regex
`/^#?([a-f\d]{2})([a-f\d]{2})([a-f\d]{2})$/i` and parse the three pairs,
returning `null` (`none`) when the regex does not match. -/
def HexToRGB (hex : String) : Option (ℤ × ℤ × ℤ) :=
  parseHex6 (stripHash hex.data)

/-- `HSLToRGB` from `src/unnamed/part_000` (lines 3-11). -/
def HSLToRGB (h s l : ℚ) : ℤ × ℤ × ℤ :=
  let s1 := s / 100
  let l1 := l / 100
  let k : ℚ → ℚ := fun n => jsMod (n + h / 30) 12
  let a := s1 * min l1 (1 - l1)
  let f : ℚ → ℚ := fun n =>
    l1 - a * max (-1) (min (k n - 3) (min (9 - k n) 1))
  (jsRound (255 * f 0), jsRound (255 * f 8), jsRound (255 * f 4))

/-- `Number.prototype.toFixed(2)`: sign of the value, then the magnitude
rounded to the nearest hundredth (ties away from zero), printed with two
decimal digits. -/
def toFixed2Str (q : ℚ) : String :=
  let sign := if q < 0 then ("-") else ("")
  let m := (⌊|q| * 100 + 1/2⌋).toNat
  sign ++ toString (m / 100) ++ (".") ++
    (if m % 100 < 10 then ("0") ++ toString (m % 100) else toString (m % 100))

/-- The per-component formatter of the `HSL` branch of `formatColor`:
`Number.isInteger(n) ? n.toString() : n.toFixed(2)`. -/
def fmtHSLComponent (n : ℚ) : String :=
  if n.den = 1 then toString n.num else toFixed2Str n

/-- The display format enum from `src/unnamed/part_001`. -/
inductive ColorFormat where
  | HSL
  | HEX
  | RGB
deriving DecidableEq

/-- `formatColor` from `src/unnamed/part_000` (lines 52-63). -/
def formatColor (hsl : HSL) (format : ColorFormat) : String :=
  match format with
  | ColorFormat.HSL =>
    fmtHSLComponent hsl.h ++ (", ") ++ fmtHSLComponent hsl.s ++ ("%, ") ++
      fmtHSLComponent hsl.l ++ ("%")
  | ColorFormat.RGB =>
    toString (HSLToRGB hsl.h hsl.s hsl.l).1 ++ (", ") ++
      toString (HSLToRGB hsl.h hsl.s hsl.l).2.1 ++ (", ") ++
      toString (HSLToRGB hsl.h hsl.s hsl.l).2.2
  | ColorFormat.HEX =>
    RGBToHex (HSLToRGB hsl.h hsl.s hsl.l).1 (HSLToRGB hsl.h hsl.s hsl.l).2.1
      (HSLToRGB hsl.h hsl.s hsl.l).2.2

/-- A character that the hex-color pattern accepts as one digit. -/
def IsHexDigit (c : Char) : Prop :=
  ('0' ≤ c ∧ c ≤ '9') ∨ ('a' ≤ c ∧ c ≤ 'f') ∨ ('A' ≤ c ∧ c ≤ 'F')

/-- A string of the shape an optional `#` followed by exactly six
hexadecimal digits — the language of `/^#?([a-f\d]{2}){3}$/i`. -/
def IsHexColorString (s : String) : Prop :=
  ∃ body : List Char, (s.data = '#' :: body ∨ s.data = body) ∧
    body.length = 6 ∧ ∀ c ∈ body, IsHexDigit c

/-- An uppercase hexadecimal digit (as produced by `toUpperCase()`). -/
def IsUpperHexDigit (c : Char) : Prop :=
  ('0' ≤ c ∧ c ≤ '9') ∨ ('A' ≤ c ∧ c ≤ 'F')

instance (c : Char) : Decidable (IsHexDigit c) := by
  unfold IsHexDigit; infer_instance

instance (c : Char) : Decidable (IsUpperHexDigit c) := by
  unfold IsUpperHexDigit; infer_instance

theorem hexChar_spec (d : ℕ) (hd : d < 16) :
    hexDigitVal? (Char.toUpper (hexChar d)) = some (d : ℤ) ∧
    IsUpperHexDigit (Char.toUpper (hexChar d)) := by
  interval_cases d <;> exact ⟨by decide, by decide⟩

theorem hexPair_spec (x : ℕ) (hx : x < 256) :
    ∃ c1 c2, (padHex2 (hexRep x)).map Char.toUpper = [c1, c2] ∧
      hexDigitVal? c1 = some ((x / 16 : ℕ) : ℤ) ∧
      hexDigitVal? c2 = some ((x % 16 : ℕ) : ℤ) ∧
      IsUpperHexDigit c1 ∧ IsUpperHexDigit c2 := by
  by_cases h : x < 16
  · have hrep : hexRep x = [hexChar x] := by unfold hexRep; rw [dif_pos h]
    have hq : x / 16 = 0 := Nat.div_eq_of_lt h
    have hr : x % 16 = x := Nat.mod_eq_of_lt h
    obtain ⟨hcv, hcu⟩ := hexChar_spec x h
    refine ⟨Char.toUpper '0', Char.toUpper (hexChar x), ?_, ?_, ?_, by decide, hcu⟩
    · rw [hrep]
      simp [padHex2]
    · rw [hq]
      decide
    · rw [hr]
      exact hcv
  · have hq : x / 16 < 16 := by omega
    have hr : x % 16 < 16 := Nat.mod_lt _ (by norm_num)
    have h1 : hexRep (x / 16) = [hexChar (x / 16)] := by unfold hexRep; rw [dif_pos hq]
    have hrep : hexRep x = [hexChar (x / 16), hexChar (x % 16)] := by
      unfold hexRep
      rw [dif_neg (by omega), h1]
      rfl
    obtain ⟨hcv1, hcu1⟩ := hexChar_spec (x / 16) hq
    obtain ⟨hcv2, hcu2⟩ := hexChar_spec (x % 16) hr
    refine ⟨Char.toUpper (hexChar (x / 16)), Char.toUpper (hexChar (x % 16)), ?_,
      hcv1, hcv2, hcu1, hcu2⟩
    rw [hrep]
    simp [padHex2]

theorem stripHash_shape (cs : List Char) :
    cs = '#' :: stripHash cs ∨ cs = stripHash cs := by
  cases cs with
  | nil => right; rfl
  | cons c t =>
    by_cases hc : c = '#'
    · left; simp [stripHash, hc]
    · right; simp [stripHash, hc]

theorem IsHexDigit_of_some (c : Char) (v : ℤ) (h : hexDigitVal? c = some v) :
    IsHexDigit c := by
  unfold hexDigitVal? at h
  split_ifs at h with h1 h2 h3
  · exact Or.inl h1
  · exact Or.inr (Or.inl h2)
  · exact Or.inr (Or.inr h3)

/-- C8: hex round-trip and failure. For components in `[0, 255]`,
`HexToRGB (RGBToHex r g b) = some (r, g, b)`; and every string that is not
an optional `#` followed by exactly six hexadecimal digits parses to
`none`. -/
theorem C8_hex_roundtrip_and_failure :
    (∀ r g b : ℤ, 0 ≤ r → r ≤ 255 → 0 ≤ g → g ≤ 255 → 0 ≤ b → b ≤ 255 →
      HexToRGB (RGBToHex r g b) = some (r, g, b)) ∧
    (∀ s : String, ¬ IsHexColorString s → HexToRGB s = none) := by
  constructor
  · intro r g b hr0 hr1 hg0 hg1 hb0 hb1
    obtain ⟨c1, c2, hpr, hv1, hv2, _, _⟩ := hexPair_spec r.toNat (by omega)
    obtain ⟨c3, c4, hpg, hv3, hv4, _, _⟩ := hexPair_spec g.toNat (by omega)
    obtain ⟨c5, c6, hpb, hv5, hv6, _, _⟩ := hexPair_spec b.toNat (by omega)
    have hjr : jsHexList r = hexRep r.toNat := if_neg (by omega)
    have hjg : jsHexList g = hexRep g.toNat := if_neg (by omega)
    have hjb : jsHexList b = hexRep b.toNat := if_neg (by omega)
    show parseHex6 (stripHash (RGBToHex r g b).data) = some (r, g, b)
    rw [RGBToHex, hjr, hjg, hjb]
    show parseHex6 (stripHash ('#' :: _)) = some (r, g, b)
    rw [List.map_append, List.map_append, hpr, hpg, hpb]
    simp only [List.cons_append, List.nil_append]
    rw [show stripHash ('#' :: [c1, c2, c3, c4, c5, c6]) = [c1, c2, c3, c4, c5, c6] by
      simp [stripHash]]
    simp only [parseHex6, hv1, hv2, hv3, hv4, hv5, hv6, Option.some.injEq,
      Prod.mk.injEq]
    refine ⟨by omega, by omega, by omega⟩
  · intro s hs
    by_contra hne
    apply hs
    rw [HexToRGB] at hne
    rcases hshape : stripHash s.data with _ | ⟨a1, _ | ⟨a2, _ | ⟨a3, _ | ⟨a4, _ |
      ⟨a5, _ | ⟨a6, _ | ⟨a7, t⟩⟩⟩⟩⟩⟩⟩ <;> rw [hshape] at hne
    · exact absurd rfl hne
    · exact absurd rfl hne
    · exact absurd rfl hne
    · exact absurd rfl hne
    · exact absurd rfl hne
    · exact absurd rfl hne
    · cases hv1 : hexDigitVal? a1 with
      | none => rw [show parseHex6 [a1, a2, a3, a4, a5, a6] = none by
          simp [parseHex6, hv1]] at hne; exact absurd rfl hne
      | some v1 =>
      cases hv2 : hexDigitVal? a2 with
      | none => rw [show parseHex6 [a1, a2, a3, a4, a5, a6] = none by
          simp [parseHex6, hv1, hv2]] at hne; exact absurd rfl hne
      | some v2 =>
      cases hv3 : hexDigitVal? a3 with
      | none => rw [show parseHex6 [a1, a2, a3, a4, a5, a6] = none by
          simp [parseHex6, hv1, hv2, hv3]] at hne; exact absurd rfl hne
      | some v3 =>
      cases hv4 : hexDigitVal? a4 with
      | none => rw [show parseHex6 [a1, a2, a3, a4, a5, a6] = none by
          simp [parseHex6, hv1, hv2, hv3, hv4]] at hne; exact absurd rfl hne
      | some v4 =>
      cases hv5 : hexDigitVal? a5 with
      | none => rw [show parseHex6 [a1, a2, a3, a4, a5, a6] = none by
          simp [parseHex6, hv1, hv2, hv3, hv4, hv5]] at hne; exact absurd rfl hne
      | some v5 =>
      cases hv6 : hexDigitVal? a6 with
      | none => rw [show parseHex6 [a1, a2, a3, a4, a5, a6] = none by
          simp [parseHex6, hv1, hv2, hv3, hv4, hv5, hv6]] at hne; exact absurd rfl hne
      | some v6 =>
      refine ⟨[a1, a2, a3, a4, a5, a6], ?_, rfl, ?_⟩
      · rw [← hshape]
        exact stripHash_shape s.data
      · intro c hc
        simp only [List.mem_cons, List.not_mem_nil, or_false] at hc
        rcases hc with rfl | rfl | rfl | rfl | rfl | rfl
        · exact IsHexDigit_of_some _ _ hv1
        · exact IsHexDigit_of_some _ _ hv2
        · exact IsHexDigit_of_some _ _ hv3
        · exact IsHexDigit_of_some _ _ hv4
        · exact IsHexDigit_of_some _ _ hv5
        · exact IsHexDigit_of_some _ _ hv6
    · exact absurd rfl hne

/-- Witness for C8: round-trip at `(255, 0, 128)` and failure on `"zzz"`. -/
theorem C8_hex_roundtrip_and_failure_witness :
    HexToRGB (RGBToHex 255 0 128) = some (255, 0, 128) ∧
    HexToRGB ("zzz") = none := by
  constructor
  · exact C8_hex_roundtrip_and_failure.1 255 0 128 (by norm_num) (by norm_num)
      (by norm_num) (by norm_num) (by norm_num) (by norm_num)
  · apply C8_hex_roundtrip_and_failure.2
    rintro ⟨body, hb | hb, hlen, _⟩
    · rw [show ("zzz").data = ['z', 'z', 'z'] from rfl] at hb
      simp only [List.cons.injEq] at hb
      exact absurd hb.1 (by decide)
    · rw [show ("zzz").data = ['z', 'z', 'z'] from rfl] at hb
      rw [← hb] at hlen
      simp at hlen

theorem hslRGB_f_bounds (s1 l1 kk : ℚ) (hs0 : 0 ≤ s1) (hs1 : s1 ≤ 1)
    (hl0 : 0 ≤ l1) (hl1 : l1 ≤ 1) :
    0 ≤ l1 - s1 * min l1 (1 - l1) * max (-1) (min (kk - 3) (min (9 - kk) 1)) ∧
    l1 - s1 * min l1 (1 - l1) * max (-1) (min (kk - 3) (min (9 - kk) 1)) ≤ 1 := by
  set m := min l1 (1 - l1) with hm
  set M := max (-1 : ℚ) (min (kk - 3) (min (9 - kk) 1)) with hM
  have hm0 : 0 ≤ m := le_min hl0 (by linarith)
  have hml : m ≤ l1 := min_le_left _ _
  have hmr : m ≤ 1 - l1 := min_le_right _ _
  have hM1 : (-1 : ℚ) ≤ M := le_max_left _ _
  have hM2 : M ≤ 1 := max_le (by norm_num) (le_trans (min_le_right _ _) (min_le_right _ _))
  have hsm : 0 ≤ s1 * m := mul_nonneg hs0 hm0
  have h1 : s1 * m * M ≤ s1 * m := by
    nlinarith [mul_nonneg hsm (sub_nonneg.mpr hM2)]
  have h2 : -(s1 * m) ≤ s1 * m * M := by
    nlinarith [mul_nonneg hsm (by linarith : (0 : ℚ) ≤ M + 1)]
  have h3 : s1 * m ≤ m := by
    nlinarith [mul_nonneg hm0 (sub_nonneg.mpr hs1)]
  constructor <;> nlinarith

theorem jsRound_byte_bounds (q : ℚ) (h0 : 0 ≤ q) (h1 : q ≤ 255) :
    0 ≤ jsRound q ∧ jsRound q ≤ 255 := by
  unfold jsRound
  constructor
  · exact Int.floor_nonneg.mpr (by linarith)
  · have h2 : (⌊q + 1/2⌋ : ℤ) < 256 := by
      rw [Int.floor_lt]
      push_cast
      linarith
    omega

theorem HSLToRGB_bounds (h s l : ℚ) (hs0 : 0 ≤ s) (hs100 : s ≤ 100)
    (hl0 : 0 ≤ l) (hl100 : l ≤ 100) :
    (0 ≤ (HSLToRGB h s l).1 ∧ (HSLToRGB h s l).1 ≤ 255) ∧
    (0 ≤ (HSLToRGB h s l).2.1 ∧ (HSLToRGB h s l).2.1 ≤ 255) ∧
    (0 ≤ (HSLToRGB h s l).2.2 ∧ (HSLToRGB h s l).2.2 ≤ 255) := by
  have hs1 : 0 ≤ s / 100 := by linarith
  have hs2 : s / 100 ≤ 1 := by linarith
  have hl1 : 0 ≤ l / 100 := by linarith
  have hl2 : l / 100 ≤ 1 := by linarith
  simp only [HSLToRGB]
  refine ⟨?_, ?_, ?_⟩
  · obtain ⟨hf0, hf1⟩ :=
      hslRGB_f_bounds (s / 100) (l / 100) (jsMod ((0 : ℚ) + h / 30) 12) hs1 hs2 hl1 hl2
    exact jsRound_byte_bounds _ (by nlinarith) (by nlinarith)
  · obtain ⟨hf0, hf1⟩ :=
      hslRGB_f_bounds (s / 100) (l / 100) (jsMod ((8 : ℚ) + h / 30) 12) hs1 hs2 hl1 hl2
    exact jsRound_byte_bounds _ (by nlinarith) (by nlinarith)
  · obtain ⟨hf0, hf1⟩ :=
      hslRGB_f_bounds (s / 100) (l / 100) (jsMod ((4 : ℚ) + h / 30) 12) hs1 hs2 hl1 hl2
    exact jsRound_byte_bounds _ (by nlinarith) (by nlinarith)

theorem fmtHSLComponent_int (q : ℚ) (h : ∃ n : ℤ, q = (n : ℚ)) :
    fmtHSLComponent q = toString q.num := by
  obtain ⟨n, rfl⟩ := h
  rw [fmtHSLComponent, if_pos (Rat.den_intCast n)]

theorem fmtHSLComponent_nonint (q : ℚ) (h : ¬ ∃ n : ℤ, q = (n : ℚ)) :
    fmtHSLComponent q = toFixed2Str q := by
  rw [fmtHSLComponent, if_neg]
  intro hden
  apply h
  refine ⟨q.num, ?_⟩
  conv_lhs => rw [← Rat.num_div_den q]
  rw [hden]
  norm_num

/-- C7 (amended): `formatColor` renders `"H, S%, L%"` for the HSL format
(each component as a plain integer exactly when its value is an integer,
otherwise in 2-decimal fixed notation rounded to the nearest hundredth),
`"R, G, B"` for the RGB format with byte components, and `"#RRGGBB"` —
a `#` followed by six uppercase hexadecimal digits — for the HEX format. -/
theorem C7_formatColor_rendering (h s l : ℚ) (hs0 : 0 ≤ s) (hs100 : s ≤ 100)
    (hl0 : 0 ≤ l) (hl100 : l ≤ 100) :
    (formatColor ⟨h, s, l⟩ ColorFormat.HSL =
      fmtHSLComponent h ++ (", ") ++ fmtHSLComponent s ++ ("%, ") ++
        fmtHSLComponent l ++ ("%")) ∧
    (∀ q : ℚ, ((∃ n : ℤ, q = (n : ℚ)) → fmtHSLComponent q = toString q.num) ∧
      (¬(∃ n : ℤ, q = (n : ℚ)) → fmtHSLComponent q = toFixed2Str q)) ∧
    (formatColor ⟨h, s, l⟩ ColorFormat.RGB =
      toString (HSLToRGB h s l).1 ++ (", ") ++ toString (HSLToRGB h s l).2.1 ++
        (", ") ++ toString (HSLToRGB h s l).2.2) ∧
    (0 ≤ (HSLToRGB h s l).1 ∧ (HSLToRGB h s l).1 ≤ 255) ∧
    (0 ≤ (HSLToRGB h s l).2.1 ∧ (HSLToRGB h s l).2.1 ≤ 255) ∧
    (0 ≤ (HSLToRGB h s l).2.2 ∧ (HSLToRGB h s l).2.2 ≤ 255) ∧
    (∃ d1 d2 d3 d4 d5 d6 : Char,
      (formatColor ⟨h, s, l⟩ ColorFormat.HEX).data = ['#', d1, d2, d3, d4, d5, d6] ∧
      IsUpperHexDigit d1 ∧ IsUpperHexDigit d2 ∧ IsUpperHexDigit d3 ∧
      IsUpperHexDigit d4 ∧ IsUpperHexDigit d5 ∧ IsUpperHexDigit d6) := by
  obtain ⟨⟨hr0, hr1⟩, ⟨hg0, hg1⟩, ⟨hb0, hb1⟩⟩ := HSLToRGB_bounds h s l hs0 hs100 hl0 hl100
  refine ⟨rfl, fun q => ⟨fmtHSLComponent_int q, fmtHSLComponent_nonint q⟩, rfl,
    ⟨hr0, hr1⟩, ⟨hg0, hg1⟩, ⟨hb0, hb1⟩, ?_⟩
  obtain ⟨c1, c2, hpr, _, _, hu1, hu2⟩ := hexPair_spec (HSLToRGB h s l).1.toNat (by omega)
  obtain ⟨c3, c4, hpg, _, _, hu3, hu4⟩ := hexPair_spec (HSLToRGB h s l).2.1.toNat (by omega)
  obtain ⟨c5, c6, hpb, _, _, hu5, hu6⟩ := hexPair_spec (HSLToRGB h s l).2.2.toNat (by omega)
  refine ⟨c1, c2, c3, c4, c5, c6, ?_, hu1, hu2, hu3, hu4, hu5, hu6⟩
  show (RGBToHex (HSLToRGB h s l).1 (HSLToRGB h s l).2.1 (HSLToRGB h s l).2.2).data = _
  rw [RGBToHex,
    show jsHexList (HSLToRGB h s l).1 = hexRep (HSLToRGB h s l).1.toNat from
      if_neg (by omega),
    show jsHexList (HSLToRGB h s l).2.1 = hexRep (HSLToRGB h s l).2.1.toNat from
      if_neg (by omega),
    show jsHexList (HSLToRGB h s l).2.2 = hexRep (HSLToRGB h s l).2.2.toNat from
      if_neg (by omega)]
  show '#' :: _ = _
  rw [List.map_append, List.map_append, hpr, hpg, hpb]
  rfl

/-- Witness for C7 at `(h, s, l) = (210, 80, 30)`. -/
theorem C7_formatColor_rendering_witness :
    (formatColor ⟨210, 80, 30⟩ ColorFormat.HSL =
      fmtHSLComponent 210 ++ (", ") ++ fmtHSLComponent 80 ++ ("%, ") ++
        fmtHSLComponent 30 ++ ("%")) ∧
    (∀ q : ℚ, ((∃ n : ℤ, q = (n : ℚ)) → fmtHSLComponent q = toString q.num) ∧
      (¬(∃ n : ℤ, q = (n : ℚ)) → fmtHSLComponent q = toFixed2Str q)) ∧
    (formatColor ⟨210, 80, 30⟩ ColorFormat.RGB =
      toString (HSLToRGB 210 80 30).1 ++ (", ") ++
        toString (HSLToRGB 210 80 30).2.1 ++ (", ") ++
        toString (HSLToRGB 210 80 30).2.2) ∧
    (0 ≤ (HSLToRGB 210 80 30).1 ∧ (HSLToRGB 210 80 30).1 ≤ 255) ∧
    (0 ≤ (HSLToRGB 210 80 30).2.1 ∧ (HSLToRGB 210 80 30).2.1 ≤ 255) ∧
    (0 ≤ (HSLToRGB 210 80 30).2.2 ∧ (HSLToRGB 210 80 30).2.2 ≤ 255) ∧
    (∃ d1 d2 d3 d4 d5 d6 : Char,
      (formatColor ⟨210, 80, 30⟩ ColorFormat.HEX).data = ['#', d1, d2, d3, d4, d5, d6] ∧
      IsUpperHexDigit d1 ∧ IsUpperHexDigit d2 ∧ IsUpperHexDigit d3 ∧
      IsUpperHexDigit d4 ∧ IsUpperHexDigit d5 ∧ IsUpperHexDigit d6) :=
  C7_formatColor_rendering 210 80 30 (by norm_num) (by norm_num) (by norm_num)
    (by norm_num)

/-- C7 counterexample to the claim's parenthetical "never rounded to a
different value": the non-integer saturation `100/3` is displayed as
`"33.33"`, the exact 2-decimal rendering of `3333/100`, which is a
different value — `toFixed(2)` rounds to the nearest hundredth. -/
theorem C7_rounding_counterexample :
    formatColor ⟨210, 100/3, 50⟩ ColorFormat.HSL = ("210, 33.33%, 50%") ∧
    toFixed2Str (100/3) = ("33.33") ∧ toFixed2Str (3333/100) = ("33.33") ∧
    (3333/100 : ℚ) ≠ 100/3 := by
  have e1 : fmtHSLComponent (210 : ℚ) = ("210") := by
    rw [fmtHSLComponent_int 210 ⟨210, by norm_num⟩, Rat.num_ofNat]
    decide
  have e2 : fmtHSLComponent (50 : ℚ) = ("50") := by
    rw [fmtHSLComponent_int 50 ⟨50, by norm_num⟩, Rat.num_ofNat]
    decide
  have e4 : toFixed2Str (100/3 : ℚ) = ("33.33") := by
    simp only [toFixed2Str]
    rw [if_neg (by norm_num), abs_of_nonneg (by norm_num : (0 : ℚ) ≤ 100/3),
      show ⌊(100/3 : ℚ) * 100 + 1/2⌋ = (3333 : ℤ) from by norm_num]
    rfl
  have e5 : toFixed2Str (3333/100 : ℚ) = ("33.33") := by
    simp only [toFixed2Str]
    rw [if_neg (by norm_num), abs_of_nonneg (by norm_num : (0 : ℚ) ≤ 3333/100),
      show ⌊(3333/100 : ℚ) * 100 + 1/2⌋ = (3333 : ℤ) from by norm_num]
    rfl
  have e3 : fmtHSLComponent (100/3 : ℚ) = toFixed2Str (100/3) := by
    apply fmtHSLComponent_nonint
    rintro ⟨n, hn⟩
    rw [div_eq_iff (by norm_num : (3 : ℚ) ≠ 0)] at hn
    have h100 : (100 : ℤ) = n * 3 := by exact_mod_cast hn
    omega
  refine ⟨?_, e4, e5, by norm_num⟩
  show fmtHSLComponent 210 ++ (", ") ++ fmtHSLComponent (100/3) ++ ("%, ") ++
    fmtHSLComponent 50 ++ ("%") = _
  rw [e1, e2, e3, e4]
  decide

/-! ## Gesture and selection state (`GridCanvas.tsx`, final variant) -/

/-- A saved color entry
(`{h: hue, s, l, id: Date.now().toString(), timestamp: now}`;
both readings of the clock within one handler are modelled as the same
instant `now`). -/
structure SavedColor where
  h : ℚ
  s : ℚ
  l : ℚ
  id : String
  timestamp : ℤ
deriving DecidableEq

/-- The visibility key of a color value:
`` `${l.toFixed(2)}_${s.toFixed(2)}` ``. -/
def colorKey (l s : ℚ) : String := toFixed2Str l ++ ("_") ++ toFixed2Str s

/-- The component state of `GridCanvas` touched by the pointer and click
handlers; `pointers` is the `Map` of pointer id to last position (insertion
order preserved), `lastClick` the double-tap tracker `(time, c, r)`. -/
structure CanvasState where
  view : ViewState
  gridOrigin : ℚ × ℚ
  selectedCell : Cell
  visibleColorCodes : List String
  savedColors : List SavedColor
  lastClick : Option (ℤ × ℤ × ℤ)
  lastPos : Option (ℚ × ℚ)
  isDragging : Bool
  pointers : List (ℕ × (ℚ × ℚ))
  lastPinchDist : Option ℚ
deriving DecidableEq

/-- The non-double-tap path of `handleCellClick`: record the click for
double-tap detection, select the cell, and toggle this color value's
label visibility. -/
def tapSelect (now : ℤ) (c r : ℤ) (l s : ℚ) (st : CanvasState) : CanvasState :=
  { st with
      lastClick := some (now, c, r),
      selectedCell := ⟨c, r⟩,
      visibleColorCodes :=
        if st.visibleColorCodes.contains (colorKey l s) then
          st.visibleColorCodes.filter (fun k => k ≠ colorKey l s)
        else st.visibleColorCodes ++ [colorKey l s] }

/-- `handleCellClick` from `GridCanvas.tsx` (lines 1058-1103): a second tap
on the same cell address within 300 ms appends one `SavedColor` and resets
the tracker (`lastClickRef.current = null`), returning early; any other tap
goes through `tapSelect`. -/
def handleCellClick (now : ℤ) (c r : ℤ) (l s : ℚ) (hue : ℚ)
    (st : CanvasState) : CanvasState :=
  match st.lastClick with
  | some prev =>
    if prev.2.1 = c ∧ prev.2.2 = r ∧ now - prev.1 < 300 then
      { st with
          savedColors := st.savedColors ++ [⟨hue, s, l, toString now, now⟩],
          lastClick := none }
    else tapSelect now c r l s st
  | none => tapSelect now c r l s st

/-- `pointers.current.set(pid, pos)`: update in place when the id is
present, append otherwise. -/
def setPointer (ps : List (ℕ × (ℚ × ℚ))) (pid : ℕ) (pos : ℚ × ℚ) :
    List (ℕ × (ℚ × ℚ)) :=
  if (ps.lookup pid).isSome then
    ps.map (fun e => if e.1 = pid then (pid, pos) else e)
  else ps ++ [(pid, pos)]

/-- `handlePointerMove` from `GridCanvas.tsx` (lines 1000-1035). `dist` is
the `Math.hypot` distance between the two tracked pointers (passed in as a
value, since the handler treats it opaquely). When two pointers are down and
the recorded `lastPinchDist` is truthy (neither `null` nor `0`), the
dampened ratio `1 + (dist/lastPinchDist - 1) * 1` and `pinchDelta =
dist - lastPinchDist` feed `performZoom`; with a falsy `lastPinchDist` no
zoom happens and only the distance is recorded. With one pointer down while
dragging with a recorded last position, the offset is translated by the
pointer's delta. -/
def handlePointerMove (st : CanvasState) (pid : ℕ) (ex ey : ℚ) (dist : ℚ) :
    CanvasState :=
  let ptrs := setPointer st.pointers pid (ex, ey)
  if ptrs.length = 2 then
    match st.lastPinchDist with
    | some d =>
      if d ≠ 0 then
        { st with
            pointers := ptrs,
            view := performZoom st.view st.selectedCell
              (st.view.scale * (1 + (dist / d - 1) * 1)) (dist - d),
            lastPinchDist := some dist }
      else { st with pointers := ptrs, lastPinchDist := some dist }
    | none => { st with pointers := ptrs, lastPinchDist := some dist }
  else
    match st.lastPos with
    | some lp =>
      if st.isDragging ∧ ptrs.length = 1 then
        { st with
            pointers := ptrs,
            view := { st.view with
              x := st.view.x + (ex - lp.1),
              y := st.view.y + (ey - lp.2) },
            lastPos := some (ex, ey) }
      else { st with pointers := ptrs }
    | none => { st with pointers := ptrs }

/-- C6: double-tap saving. Starting with an empty double-tap tracker, a tap
at `t1` and a second tap at `t2` (within 300 ms) on the same cell `(c, r)`
append exactly one `SavedColor` with the cell's hue, saturation and
lightness; the second tap changes neither the selection nor the label
visibility set, and resets the tracker to empty, so a third tap at `t3`
within 300 ms of the second performs no further save. -/
theorem C6_double_tap_saving (st : CanvasState) (hue l s : ℚ) (c r t1 t2 t3 : ℤ)
    (h0 : st.lastClick = none) (h12 : t2 - t1 < 300) (h23 : t3 - t2 < 300) :
    (handleCellClick t2 c r l s hue (handleCellClick t1 c r l s hue st)).savedColors =
      st.savedColors ++ [⟨hue, s, l, toString t2, t2⟩] ∧
    (handleCellClick t2 c r l s hue (handleCellClick t1 c r l s hue st)).selectedCell =
      (handleCellClick t1 c r l s hue st).selectedCell ∧
    (handleCellClick t2 c r l s hue
        (handleCellClick t1 c r l s hue st)).visibleColorCodes =
      (handleCellClick t1 c r l s hue st).visibleColorCodes ∧
    (handleCellClick t2 c r l s hue (handleCellClick t1 c r l s hue st)).lastClick =
      none ∧
    (handleCellClick t3 c r l s hue (handleCellClick t2 c r l s hue
        (handleCellClick t1 c r l s hue st))).savedColors =
      (handleCellClick t2 c r l s hue
        (handleCellClick t1 c r l s hue st)).savedColors := by
  have hst1 : handleCellClick t1 c r l s hue st = tapSelect t1 c r l s st := by
    rw [handleCellClick, h0]
  have hst2 : handleCellClick t2 c r l s hue (tapSelect t1 c r l s st) =
      { tapSelect t1 c r l s st with
          savedColors := st.savedColors ++ [⟨hue, s, l, toString t2, t2⟩],
          lastClick := none } := by
    simp [handleCellClick, tapSelect, h12]
  rw [hst1, hst2]
  refine ⟨rfl, rfl, rfl, rfl, ?_⟩
  rw [handleCellClick]
  rfl

/-- Witness for C6: two taps on cell `(3, -2)` at `t = 0` and `t = 100`,
and a third at `t = 200`. -/
theorem C6_double_tap_saving_witness :
    (handleCellClick 100 3 (-2) 60 55 210 (handleCellClick 0 3 (-2) 60 55 210
        ⟨⟨0, 0, 1, 5⟩, (50, 50), ⟨0, 0⟩, [], [], none, none, false, [], none⟩)).savedColors =
      [] ++ [⟨210, 55, 60, toString (100 : ℤ), 100⟩] ∧
    (handleCellClick 100 3 (-2) 60 55 210 (handleCellClick 0 3 (-2) 60 55 210
        ⟨⟨0, 0, 1, 5⟩, (50, 50), ⟨0, 0⟩, [], [], none, none, false, [], none⟩)).selectedCell =
      (handleCellClick 0 3 (-2) 60 55 210
        ⟨⟨0, 0, 1, 5⟩, (50, 50), ⟨0, 0⟩, [], [], none, none, false, [], none⟩).selectedCell ∧
    (handleCellClick 100 3 (-2) 60 55 210 (handleCellClick 0 3 (-2) 60 55 210
        ⟨⟨0, 0, 1, 5⟩, (50, 50), ⟨0, 0⟩, [], [], none, none, false, [],
          none⟩)).visibleColorCodes =
      (handleCellClick 0 3 (-2) 60 55 210
        ⟨⟨0, 0, 1, 5⟩, (50, 50), ⟨0, 0⟩, [], [], none, none, false, [],
          none⟩).visibleColorCodes ∧
    (handleCellClick 100 3 (-2) 60 55 210 (handleCellClick 0 3 (-2) 60 55 210
        ⟨⟨0, 0, 1, 5⟩, (50, 50), ⟨0, 0⟩, [], [], none, none, false, [], none⟩)).lastClick =
      none ∧
    (handleCellClick 200 3 (-2) 60 55 210 (handleCellClick 100 3 (-2) 60 55 210
        (handleCellClick 0 3 (-2) 60 55 210
          ⟨⟨0, 0, 1, 5⟩, (50, 50), ⟨0, 0⟩, [], [], none, none, false, [],
            none⟩))).savedColors =
      (handleCellClick 100 3 (-2) 60 55 210 (handleCellClick 0 3 (-2) 60 55 210
        ⟨⟨0, 0, 1, 5⟩, (50, 50), ⟨0, 0⟩, [], [], none, none, false, [],
          none⟩)).savedColors :=
  C6_double_tap_saving
    ⟨⟨0, 0, 1, 5⟩, (50, 50), ⟨0, 0⟩, [], [], none, none, false, [], none⟩
    210 60 55 3 (-2) 0 100 200 rfl (by decide) (by decide)

/-- C9: degenerate pinch guard. During a two-pointer move, when the recorded
last pinch distance is absent (`null`) or zero, the handler performs no zoom
— the whole view state (offset, scale, step) is unchanged for that frame —
and only records the new distance; in particular the `dist / lastPinchDist`
ratio is never computed with a zero denominator. -/
theorem C9_degenerate_pinch_guard (st : CanvasState) (pid : ℕ) (ex ey dist : ℚ)
    (h2 : (setPointer st.pointers pid (ex, ey)).length = 2)
    (hd : st.lastPinchDist = none ∨ st.lastPinchDist = some 0) :
    (handlePointerMove st pid ex ey dist).view = st.view ∧
    (handlePointerMove st pid ex ey dist).lastPinchDist = some dist := by
  rcases hd with hd | hd <;> simp [handlePointerMove, h2, hd]

/-- Witness for C9: two tracked pointers with a recorded pinch distance of
zero. -/
theorem C9_degenerate_pinch_guard_witness :
    (handlePointerMove
      ⟨⟨0, 0, 1, 5⟩, (50, 50), ⟨0, 0⟩, [], [], none, none, false,
        [(0, (0, 0)), (1, (10, 0))], some 0⟩ 0 5 5 20).view = ⟨0, 0, 1, 5⟩ ∧
    (handlePointerMove
      ⟨⟨0, 0, 1, 5⟩, (50, 50), ⟨0, 0⟩, [], [], none, none, false,
        [(0, (0, 0)), (1, (10, 0))], some 0⟩ 0 5 5 20).lastPinchDist = some 20 :=
  C9_degenerate_pinch_guard
    ⟨⟨0, 0, 1, 5⟩, (50, 50), ⟨0, 0⟩, [], [], none, none, false,
      [(0, (0, 0)), (1, (10, 0))], some 0⟩ 0 5 5 20 (by decide) (Or.inr rfl)

/-- C10: pan frame effect. A pointer-move handled while a single-pointer pan
is active (one tracked pointer, dragging, with a recorded last position)
translates the offset by exactly the pointer's screen-space delta, while
scale, step, grid origin, selected cell and the saved-color list are all
unchanged. -/
theorem C10_pan_frame_effect (st : CanvasState) (pid : ℕ) (ex ey dist lx ly : ℚ)
    (h1 : (setPointer st.pointers pid (ex, ey)).length = 1)
    (hdrag : st.isDragging = true)
    (hlp : st.lastPos = some (lx, ly)) :
    (handlePointerMove st pid ex ey dist).view.x = st.view.x + (ex - lx) ∧
    (handlePointerMove st pid ex ey dist).view.y = st.view.y + (ey - ly) ∧
    (handlePointerMove st pid ex ey dist).view.scale = st.view.scale ∧
    (handlePointerMove st pid ex ey dist).view.step = st.view.step ∧
    (handlePointerMove st pid ex ey dist).gridOrigin = st.gridOrigin ∧
    (handlePointerMove st pid ex ey dist).selectedCell = st.selectedCell ∧
    (handlePointerMove st pid ex ey dist).savedColors = st.savedColors ∧
    (handlePointerMove st pid ex ey dist).lastPos = some (ex, ey) := by
  simp [handlePointerMove, h1, hdrag, hlp]

/-- Witness for C10: a pan frame moving the pointer from `(3, 4)` to
`(7, 9)`. -/
theorem C10_pan_frame_effect_witness :
    (handlePointerMove
      ⟨⟨100, 200, 1, 5⟩, (50, 50), ⟨0, 0⟩, [], [], none, some (3, 4), true,
        [(0, (3, 4))], none⟩ 0 7 9 0).view.x = 100 + (7 - 3) ∧
    (handlePointerMove
      ⟨⟨100, 200, 1, 5⟩, (50, 50), ⟨0, 0⟩, [], [], none, some (3, 4), true,
        [(0, (3, 4))], none⟩ 0 7 9 0).view.y = 200 + (9 - 4) ∧
    (handlePointerMove
      ⟨⟨100, 200, 1, 5⟩, (50, 50), ⟨0, 0⟩, [], [], none, some (3, 4), true,
        [(0, (3, 4))], none⟩ 0 7 9 0).view.scale = 1 ∧
    (handlePointerMove
      ⟨⟨100, 200, 1, 5⟩, (50, 50), ⟨0, 0⟩, [], [], none, some (3, 4), true,
        [(0, (3, 4))], none⟩ 0 7 9 0).view.step = 5 ∧
    (handlePointerMove
      ⟨⟨100, 200, 1, 5⟩, (50, 50), ⟨0, 0⟩, [], [], none, some (3, 4), true,
        [(0, (3, 4))], none⟩ 0 7 9 0).gridOrigin = (50, 50) ∧
    (handlePointerMove
      ⟨⟨100, 200, 1, 5⟩, (50, 50), ⟨0, 0⟩, [], [], none, some (3, 4), true,
        [(0, (3, 4))], none⟩ 0 7 9 0).selectedCell = ⟨0, 0⟩ ∧
    (handlePointerMove
      ⟨⟨100, 200, 1, 5⟩, (50, 50), ⟨0, 0⟩, [], [], none, some (3, 4), true,
        [(0, (3, 4))], none⟩ 0 7 9 0).savedColors = [] ∧
    (handlePointerMove
      ⟨⟨100, 200, 1, 5⟩, (50, 50), ⟨0, 0⟩, [], [], none, some (3, 4), true,
        [(0, (3, 4))], none⟩ 0 7 9 0).lastPos = some (7, 9) :=
  C10_pan_frame_effect
    ⟨⟨100, 200, 1, 5⟩, (50, 50), ⟨0, 0⟩, [], [], none, some (3, 4), true,
      [(0, (3, 4))], none⟩ 0 7 9 0 3 4 (by decide) rfl rfl

end ChromaFlow
